import Mathlib

/-!
Shallow embedding of the CHIP-8 interpreter core from `src/chip8.rs` and
`src/constant.rs` of the repository under verification.

Modelling conventions:
* Machine integers are `Nat`. Fields typed `u8` in the source always hold
  values below 256, fields typed `u16` hold values below 65536; wrapping or
  overflow is made explicit exactly where the source performs arithmetic
  that can leave the range of the machine type.
* Rust panics (array index out of bounds, and integer overflow of the
  built-in arithmetic operators under the default debug profile) are
  modelled by `Option`: a function returns `none` where the source
  terminates the process with a panic. The state at the moment of a panic
  is not observable by the host, with the single exception of `load_rom`,
  whose result type keeps the memory image written so far because the
  claims speak about mutation before the fault.
* Array fields of the `Chip8` struct are modelled as functions from `Nat`;
  only indices below the array length are ever read or written by the
  embedded code on states reachable from well-formed ones, mirroring the
  fixed array lengths of the source.
-/

/-- Screen width in pixels, from constant.rs. -/
def SCREEN_WIDTH : Nat := 64

/-- Screen height in pixels, from constant.rs. -/
def SCREEN_HEIGHT : Nat := 32

/-- Size of the CHIP-8 memory in bytes, from constant.rs. -/
def CHIP8_MEMORY : Nat := 4096

/-- Length in bytes of one CHIP-8 instruction, from constant.rs. -/
def INSTRUCTION_LENGTH : Nat := 2

/-- Machine state of the interpreter, mirroring `struct Chip8` field by
field: screen, memory, the sixteen general data registers, the address
register I, the two timers, the keyboard latch with its waiting flag and
target register, the call stack with its pointer, and the program
counter. -/
structure Chip8 where
  screen : Nat → Nat → Nat
  memory : Nat → Nat
  data_register : Nat → Nat
  address_register : Nat
  delay_timer : Nat
  sound_timer : Nat
  keyboard : Nat → Bool
  keyboard_waiting : Bool
  keyboard_register : Nat
  stack : Nat → Nat
  stack_pointer : Nat
  program_counter : Nat

/-- Pointwise update of a function-modelled array: `upd f i v` is the
array `f` with index `i` overwritten by `v`. -/
def upd (f : Nat → Nat) (i v : Nat) : Nat → Nat :=
  fun j => if j = i then v else f j

/-- Models `Chip8::get_opcode`: the big-endian 16-bit word assembled from
the two memory bytes at the program counter. The source indexes
`self.memory` at `pc` and `pc + 1` without a bounds check, so the fetch
panics (modelled as `none`) whenever `pc + 1` is outside the 4096-byte
memory. -/
def get_opcode (c : Chip8) : Option Nat :=
  if c.program_counter + 1 < CHIP8_MEMORY then
    some ((c.memory c.program_counter <<< 8) ||| c.memory (c.program_counter + 1))
  else none

/-- Models `Instructions::cls` for opcode 00E0: every pixel of the
64 x 32 screen is set to 0, then the program counter is advanced by
`INSTRUCTION_LENGTH`. The guard models the u16 overflow of the program
counter increment, which panics under the debug profile. -/
def cls (c : Chip8) : Option Chip8 :=
  if c.program_counter + INSTRUCTION_LENGTH < 65536 then
    some { c with
      screen := fun y x => if y < SCREEN_HEIGHT ∧ x < SCREEN_WIDTH then 0 else c.screen y x,
      program_counter := c.program_counter + INSTRUCTION_LENGTH }
  else none

/-- Models `Instructions::ret` for opcode 00EE: the stack pointer is
decremented, the program counter is loaded from the popped slot and then
advanced by `INSTRUCTION_LENGTH`. The three guards model, in source
order, the usize underflow of `stack_pointer -= 1` when the stack is
empty, the out-of-bounds stack access when the decremented pointer is not
below 16, and the u16 overflow of the final increment; each is a panic
(`none`) in the source. -/
def ret (c : Chip8) : Option Chip8 :=
  if c.stack_pointer = 0 then none
  else if c.stack_pointer - 1 < 16 then
    if c.stack (c.stack_pointer - 1) + INSTRUCTION_LENGTH < 65536 then
      some { c with
        stack_pointer := c.stack_pointer - 1,
        program_counter := c.stack (c.stack_pointer - 1) + INSTRUCTION_LENGTH }
    else none
  else none

/-- Models `Instructions::jp` for opcode 1NNN: the program counter is set
to the low 12 bits of the fetched opcode. -/
def jp (c : Chip8) : Option Chip8 :=
  match get_opcode c with
  | some opcode => some { c with program_counter := opcode &&& 0x0FFF }
  | none => none

/-- Models `Instructions::call` for opcode 2NNN: the address of the next
instruction is pushed on the stack, the stack pointer is incremented, and
the program counter is set to the low 12 bits of the fetched opcode. The
guards model, in source order, the u16 overflow of
`program_counter + INSTRUCTION_LENGTH`, the out-of-bounds stack write when
the stack pointer is not below 16, and the panic of the opcode fetch. -/
def call (c : Chip8) : Option Chip8 :=
  if c.program_counter + INSTRUCTION_LENGTH < 65536 then
    if c.stack_pointer < 16 then
      match get_opcode c with
      | some opcode =>
        some { c with
          stack := upd c.stack c.stack_pointer (c.program_counter + INSTRUCTION_LENGTH),
          stack_pointer := c.stack_pointer + 1,
          program_counter := opcode &&& 0x0FFF }
      | none => none
    else none
  else none

/-- Models `Instructions::se_vx_byte` for opcode 3XNN. Note that the
source compares `self.memory[x]` with NN, indexing the memory image with
the register number X rather than reading the register file. When the
tested byte equals NN the program counter receives an extra increment, and
it is always advanced by `INSTRUCTION_LENGTH` once. A successful fetch
bounds the program counter below 0xFFF, so neither increment can overflow
the u16 program counter and no overflow guard is needed. -/
def se_vx_byte (c : Chip8) : Option Chip8 :=
  match get_opcode c with
  | some opcode =>
    let x := (opcode &&& 0x0F00) >>> 8
    let nn := opcode &&& 0x00FF
    some { c with program_counter :=
      (if c.memory x = nn then c.program_counter + INSTRUCTION_LENGTH
       else c.program_counter) + INSTRUCTION_LENGTH }
  | none => none

/-- Models `Instructions::sne_vx_byte` for opcode 4XNN: identical to
`se_vx_byte` except that the extra increment happens when the tested byte
differs from NN. The source again tests `self.memory[x]`, not the
register file. -/
def sne_vx_byte (c : Chip8) : Option Chip8 :=
  match get_opcode c with
  | some opcode =>
    let x := (opcode &&& 0x0F00) >>> 8
    let nn := opcode &&& 0x00FF
    some { c with program_counter :=
      (if c.memory x ≠ nn then c.program_counter + INSTRUCTION_LENGTH
       else c.program_counter) + INSTRUCTION_LENGTH }
  | none => none

/-- Models `Instructions::ld_vx_byte` for opcode 6XNN. The source stores
NN into `self.memory[x]`, indexing the memory image with the register
number X; the register file `data_register` is not touched. The program
counter is advanced by `INSTRUCTION_LENGTH`. -/
def ld_vx_byte (c : Chip8) : Option Chip8 :=
  match get_opcode c with
  | some opcode =>
    let x := (opcode &&& 0x0F00) >>> 8
    let nn := opcode &&& 0x00FF
    some { c with
      memory := upd c.memory x nn,
      program_counter := c.program_counter + INSTRUCTION_LENGTH }
  | none => none

/-- Models `Instructions::add_vx_byte` for opcode 7XNN. The source
executes `self.memory[x] += nn` with the built-in u8 addition: under the
default debug profile this panics when the sum reaches 256, modelled by
the `none` branch, and again the target of the addition is the memory
image at index X, not the register file. -/
def add_vx_byte (c : Chip8) : Option Chip8 :=
  match get_opcode c with
  | some opcode =>
    let x := (opcode &&& 0x0F00) >>> 8
    let nn := opcode &&& 0x00FF
    if c.memory x + nn < 256 then
      some { c with
        memory := upd c.memory x (c.memory x + nn),
        program_counter := c.program_counter + INSTRUCTION_LENGTH }
    else none
  | none => none

/-- Models `Chip8::exec_opcode`: fetch the opcode, match on its top
nibble. Family 0x0 dispatches 00E0 to `cls` and 00EE to `ret` and panics
on every other pattern, family 0x1 dispatches to `jp`, and every other
family falls into the wildcard arm of the source match, which does
nothing at all and leaves the state unchanged. -/
def exec_opcode (c : Chip8) : Option Chip8 :=
  match get_opcode c with
  | some opcode =>
    if opcode &&& 0xF000 = 0x0000 then
      if opcode = 0x00E0 then cls c
      else if opcode = 0x00EE then ret c
      else none
    else if opcode &&& 0xF000 = 0x1000 then jp c
    else some c
  | none => none

/-- Result of loading a ROM: `ok` carries the final state, `fault`
carries the state at the moment the loop panics on an out-of-bounds
memory write, making the mutation performed before the panic visible. -/
inductive RomLoad where
  | ok : Chip8 → RomLoad
  | fault : Chip8 → RomLoad

/-- Helper loop of `load_rom`: writes the ROM bytes one by one at
addresses 0x200 + i, mirroring the enumerate loop of the source. The
source has no length check, so a write at an address not below 4096
panics with an index out of bounds; the Bool result records whether the
loop panicked, and the returned memory holds everything written up to
that point. -/
def load_rom_go : (Nat → Nat) → Nat → List Nat → (Nat → Nat) × Bool
  | mem, _, [] => (mem, false)
  | mem, i, b :: rest =>
    if 0x200 + i < CHIP8_MEMORY then load_rom_go (upd mem (0x200 + i) b) (i + 1) rest
    else (mem, true)

/-- Models `Chip8::load_rom`: copies the ROM bytes into memory starting
at 0x200 with no length check whatsoever. -/
def load_rom (c : Chip8) (rom_data : List Nat) : RomLoad :=
  let r := load_rom_go c.memory 0 rom_data
  if r.2 then RomLoad.fault { c with memory := r.1 }
  else RomLoad.ok { c with memory := r.1 }

/-- Freshly zeroed machine used as a base for concrete witness states:
all arrays zeroed, program counter at 0x200 as set by `Chip8::new`. The
font bytes that `Chip8::new` would copy are irrelevant to every claim and
are left at zero. -/
def zeroState : Chip8 where
  screen := fun _ _ => 0
  memory := fun _ => 0
  data_register := fun _ => 0
  address_register := 0
  delay_timer := 0
  sound_timer := 0
  keyboard := fun _ => false
  keyboard_waiting := false
  keyboard_register := 0
  stack := fun _ => 0
  stack_pointer := 0
  program_counter := 0x200

/-- Zeroed machine whose two memory bytes at 0x200 and 0x201 hold the
given opcode bytes, so that the fetch at the initial program counter
returns the opcode b0 b1. -/
def withBytes (b0 b1 : Nat) : Chip8 :=
  { zeroState with
    memory := fun a => if a = 0x200 then b0 else if a = 0x201 then b1 else 0 }

/-- Inversion of a successful fetch: the program counter is in bounds and
the opcode is the big-endian combination of the two bytes at it. -/
lemma get_opcode_some {c : Chip8} {op : Nat} (hf : get_opcode c = some op) :
    c.program_counter + 1 < 4096 ∧
      op = (c.memory c.program_counter <<< 8) ||| c.memory (c.program_counter + 1) := by
  unfold get_opcode CHIP8_MEMORY at hf
  by_cases h : c.program_counter + 1 < 4096
  · rw [if_pos h] at hf
    exact ⟨h, (Option.some_injective _ hf).symm⟩
  · rw [if_neg h] at hf
    exact absurd hf (by simp)

/-- Big-endian combination as shift-or equals the arithmetic form when
the low byte is below 256. -/
lemma shiftLeft_lor_eq (hi lo : Nat) (h : lo < 256) :
    (hi <<< 8) ||| lo = 256 * hi + lo := by
  have h2 : lo < 2 ^ 8 := by norm_num at h ⊢; omega
  rw [Nat.shiftLeft_eq, Nat.mul_comm, ← Nat.mul_add_lt_is_or h2]

/-- Claim C1: from any state with stack capacity and a fetchable opcode,
executing CALL and then immediately RET leaves the stack depth at its
prior value, but the program counter lands at the CALL address plus 4,
not plus 2 as the claim states: `call` pushes the already-incremented
return address and `ret` increments once more after popping. -/
theorem call_then_ret_lands_four_past (c : Chip8) (op : Nat)
    (hf : get_opcode c = some op) (hsp : c.stack_pointer < 16) :
    ((call c).bind ret).map (fun c2 => (c2.program_counter, c2.stack_pointer)) =
      some (c.program_counter + 4, c.stack_pointer) := by
  obtain ⟨hpc, -⟩ := get_opcode_some hf
  have h2 : c.program_counter + 2 < 65536 := by omega
  have h4 : c.program_counter + 2 + 2 < 65536 := by omega
  simp [call, ret, INSTRUCTION_LENGTH, hf, upd, h2, hsp, h4]

/-- Witness for C1: the fresh machine has opcode 0x0000 at 0x200, which
the call and ret routines accept since neither checks the family nibble;
both hypotheses hold there. -/
theorem call_then_ret_lands_four_past_witness :
    get_opcode zeroState = some 0 ∧ zeroState.stack_pointer < 16 ∧
      ((call zeroState).bind ret).map (fun c2 => (c2.program_counter, c2.stack_pointer)) =
        some (zeroState.program_counter + 4, zeroState.stack_pointer) :=
  ⟨by decide, by decide, call_then_ret_lands_four_past zeroState 0 (by decide) (by decide)⟩

/-- Claim C2: for a fetchable opcode, the dispatcher panics (modelled
none) on every family-0x0 pattern other than 00E0 and 00EE instead of
returning an InvalidOpcode error, and silently leaves the whole machine
state unchanged, program counter included, for every pattern whose top
nibble is neither 0x0 nor 0x1. -/
theorem exec_opcode_unhandled (c : Chip8) (op : Nat) (hf : get_opcode c = some op) :
    (op &&& 0xF000 = 0x0000 → op ≠ 0x00E0 → op ≠ 0x00EE → exec_opcode c = none) ∧
    (op &&& 0xF000 ≠ 0x0000 → op &&& 0xF000 ≠ 0x1000 → exec_opcode c = some c) := by
  constructor
  · intro h0 hE0 hEE
    unfold exec_opcode
    simp only [hf]
    rw [if_pos h0, if_neg hE0, if_neg hEE]
  · intro h0 h1
    unfold exec_opcode
    simp only [hf]
    rw [if_neg h0, if_neg h1]

/-- Witness for C2: on the fresh machine the fetched opcode is 0x0000,
which falls into the panicking arm of the family-0x0 match. -/
theorem exec_opcode_unhandled_witness :
    get_opcode zeroState = some 0 ∧ exec_opcode zeroState = none :=
  ⟨by decide,
    (exec_opcode_unhandled zeroState 0 (by decide)).1 (by decide) (by decide) (by decide)⟩

/-- Claim C7: executing RET with an empty stack does not return a
StackUnderflow error value: the decrement of the usize stack pointer
underflows and the source panics, modelled by the `none` result. -/
theorem ret_empty_stack_faults (c : Chip8) (h : c.stack_pointer = 0) :
    ret c = none := by
  unfold ret
  rw [if_pos h]

/-- Witness for C7: the fresh machine has an empty stack. -/
theorem ret_empty_stack_faults_witness :
    zeroState.stack_pointer = 0 ∧ ret zeroState = none :=
  ⟨rfl, ret_empty_stack_faults zeroState rfl⟩

/-- Claim C3: the load-immediate instruction 6XNN aliases the register
index with a memory address: executing it writes NN into the memory
image at address X, leaves the register file completely untouched, and
changes no other memory byte, contrary to the claim that only the
register file entry X changes while the memory byte at X stays as it
was. -/
theorem ld_vx_byte_writes_memory_at_x (c : Chip8) (op : Nat)
    (hf : get_opcode c = some op) :
    ∃ c1, ld_vx_byte c = some c1 ∧
      c1.data_register = c.data_register ∧
      c1.memory ((op &&& 0x0F00) >>> 8) = op &&& 0x00FF ∧
      (∀ a, a ≠ (op &&& 0x0F00) >>> 8 → c1.memory a = c.memory a) := by
  refine ⟨{ c with
      memory := upd c.memory ((op &&& 0x0F00) >>> 8) (op &&& 0x00FF),
      program_counter := c.program_counter + INSTRUCTION_LENGTH }, ?_, rfl, ?_, ?_⟩
  · unfold ld_vx_byte
    simp only [hf]
  · simp [upd]
  · intro a ha
    simp [upd, ha]

/-- Witness for C3: the machine with opcode 0x6A42 at the initial
program counter; the fetch hypothesis holds by computation. -/
theorem ld_vx_byte_writes_memory_at_x_witness :
    get_opcode (withBytes 0x6A 0x42) = some 0x6A42 ∧
      ∃ c1, ld_vx_byte (withBytes 0x6A 0x42) = some c1 ∧
        c1.data_register = (withBytes 0x6A 0x42).data_register ∧
        c1.memory ((0x6A42 &&& 0x0F00) >>> 8) = 0x6A42 &&& 0x00FF ∧
        (∀ a, a ≠ (0x6A42 &&& 0x0F00) >>> 8 →
          c1.memory a = (withBytes 0x6A 0x42).memory a) :=
  ⟨by decide, ld_vx_byte_writes_memory_at_x (withBytes 0x6A 0x42) 0x6A42 (by decide)⟩

/-- Claim C5: the add-immediate instruction 7XNN does not implement
wrapping modulo 256: when the byte it targets plus NN reaches 256 the
unchecked u8 addition of the source panics under the debug profile
(modelled none), and when the sum stays below 256 the result is written
into the memory image at address X while the register file, including
VX, is untouched. -/
theorem add_vx_byte_overflow_and_target (c : Chip8) (op : Nat)
    (hf : get_opcode c = some op) :
    (256 ≤ c.memory ((op &&& 0x0F00) >>> 8) + (op &&& 0x00FF) →
       add_vx_byte c = none) ∧
    (c.memory ((op &&& 0x0F00) >>> 8) + (op &&& 0x00FF) < 256 →
       ∃ c1, add_vx_byte c = some c1 ∧
         c1.data_register = c.data_register ∧
         c1.memory ((op &&& 0x0F00) >>> 8)
           = c.memory ((op &&& 0x0F00) >>> 8) + (op &&& 0x00FF)) := by
  constructor
  · intro hov
    unfold add_vx_byte
    simp only [hf]
    rw [if_neg (by omega)]
  · intro hlt
    refine ⟨{ c with
        memory := upd c.memory ((op &&& 0x0F00) >>> 8)
          (c.memory ((op &&& 0x0F00) >>> 8) + (op &&& 0x00FF)),
        program_counter := c.program_counter + INSTRUCTION_LENGTH }, ?_, rfl, ?_⟩
    · unfold add_vx_byte
      simp only [hf]
      rw [if_pos hlt]
    · simp [upd]

/-- State for the C5 witness: opcode 0x7001 at the program counter and
the byte 255 at memory address 0, so the addition 255 + 1 overflows. -/
def stADD : Chip8 :=
  { zeroState with
    memory := fun a =>
      if a = 0x200 then 0x70 else if a = 0x201 then 0x01 else
      if a = 0 then 255 else 0 }

/-- Witness for C5: on stADD the fetched opcode is 0x7001, the targeted
byte holds 255, the immediate is 1, and execution panics. -/
theorem add_vx_byte_overflow_and_target_witness :
    get_opcode stADD = some 0x7001 ∧
      256 ≤ stADD.memory ((0x7001 &&& 0x0F00) >>> 8) + (0x7001 &&& 0x00FF) ∧
      add_vx_byte stADD = none :=
  ⟨by decide, by decide,
    (add_vx_byte_overflow_and_target stADD 0x7001 (by decide)).1 (by decide)⟩

/-- State for the C6 evaluation: register V1 holds 5, the opcode at the
program counter is 0x3105 (skip next if V1 equals 05), but the memory
byte at address 1 holds 0. -/
def stSE : Chip8 :=
  { withBytes 0x31 0x05 with data_register := fun r => if r = 1 then 5 else 0 }

/-- Claim C6: concrete evaluation showing that skip-equal 3XNN tests the
memory byte at address X rather than register VX: in stSE register V1
holds exactly NN = 5, yet the program counter advances by only 2,
because the memory byte at address 1 holds 0, not 5. -/
theorem se_vx_byte_ignores_register :
    stSE.data_register 1 = 5 ∧ stSE.memory 1 = 0 ∧
      (se_vx_byte stSE).map Chip8.program_counter = some 0x202 :=
  ⟨rfl, rfl, by decide⟩

/-- Claim C8: when both fetched cells hold bytes (below 256, as the u8
memory of the source guarantees), a fetch with pc + 1 at most 0xFFF
returns the big-endian word, high byte at pc; a fetch with pc + 1 above
0xFFF panics on the out-of-bounds memory index (modelled none) instead
of returning an OutOfBoundsFetch error value. -/
theorem get_opcode_bigendian_or_fault (c : Chip8)
    (hlo : c.memory (c.program_counter + 1) < 256) :
    (c.program_counter + 1 ≤ 0xFFF →
       get_opcode c = some (256 * c.memory c.program_counter
         + c.memory (c.program_counter + 1))) ∧
    (0xFFF < c.program_counter + 1 → get_opcode c = none) := by
  constructor
  · intro h
    unfold get_opcode CHIP8_MEMORY
    rw [if_pos (by omega), shiftLeft_lor_eq _ _ hlo]
  · intro h
    unfold get_opcode CHIP8_MEMORY
    rw [if_neg (by omega)]

/-- State for the faulting side of the C8 witness: program counter at
0xFFF, where the second fetched cell would be memory index 0x1000. -/
def stHighPC : Chip8 := { zeroState with program_counter := 0xFFF }

/-- Witness for C8: on the fresh machine the in-bounds fetch returns the
big-endian word of the two zero bytes, and on stHighPC the fetch
faults. -/
theorem get_opcode_bigendian_or_fault_witness :
    zeroState.memory (zeroState.program_counter + 1) < 256 ∧
      zeroState.program_counter + 1 ≤ 0xFFF ∧
      get_opcode zeroState = some (256 * zeroState.memory zeroState.program_counter
        + zeroState.memory (zeroState.program_counter + 1)) ∧
      0xFFF < stHighPC.program_counter + 1 ∧
      get_opcode stHighPC = none :=
  ⟨by decide, by decide,
    (get_opcode_bigendian_or_fault zeroState (by decide)).1 (by decide),
    by decide,
    (get_opcode_bigendian_or_fault stHighPC (by decide)).2 (by decide)⟩

/-- Claim C9: executing clear-screen 00E0 through the dispatcher sets
every pixel of the 64 x 32 framebuffer to clear, leaves the general
registers, address register, stack, stack depth, timers, memory and
keyboard latch unchanged, and advances the program counter by exactly
2. -/
theorem exec_cls_clears_screen (c : Chip8) (hf : get_opcode c = some 0x00E0) :
    ∃ c1, exec_opcode c = some c1 ∧
      (∀ y x, y < 32 → x < 64 → c1.screen y x = 0) ∧
      c1.memory = c.memory ∧
      c1.data_register = c.data_register ∧
      c1.address_register = c.address_register ∧
      c1.delay_timer = c.delay_timer ∧
      c1.sound_timer = c.sound_timer ∧
      c1.keyboard = c.keyboard ∧
      c1.keyboard_waiting = c.keyboard_waiting ∧
      c1.keyboard_register = c.keyboard_register ∧
      c1.stack = c.stack ∧
      c1.stack_pointer = c.stack_pointer ∧
      c1.program_counter = c.program_counter + 2 := by
  obtain ⟨hpc, -⟩ := get_opcode_some hf
  refine ⟨{ c with
      screen := fun y x => if y < SCREEN_HEIGHT ∧ x < SCREEN_WIDTH then 0 else c.screen y x,
      program_counter := c.program_counter + INSTRUCTION_LENGTH },
    ?_, ?_, rfl, rfl, rfl, rfl, rfl, rfl, rfl, rfl, rfl, rfl, rfl⟩
  · have hg : c.program_counter + INSTRUCTION_LENGTH < 65536 := by
      unfold INSTRUCTION_LENGTH
      omega
    unfold exec_opcode cls
    simp only [hf]
    simp [hg]
    intro h
    exact absurd (by decide : (224 : Nat) &&& 61440 = 0) h
  · intro y x hy hx
    simp only [SCREEN_HEIGHT, SCREEN_WIDTH]
    simp [hy, hx]

/-- Witness for C9: the machine with bytes 0x00 0xE0 at the initial
program counter fetches exactly the clear-screen opcode. -/
theorem exec_cls_clears_screen_witness :
    get_opcode (withBytes 0x00 0xE0) = some 0x00E0 ∧
      ∃ c1, exec_opcode (withBytes 0x00 0xE0) = some c1 ∧
        (∀ y x, y < 32 → x < 64 → c1.screen y x = 0) ∧
        c1.memory = (withBytes 0x00 0xE0).memory ∧
        c1.data_register = (withBytes 0x00 0xE0).data_register ∧
        c1.address_register = (withBytes 0x00 0xE0).address_register ∧
        c1.delay_timer = (withBytes 0x00 0xE0).delay_timer ∧
        c1.sound_timer = (withBytes 0x00 0xE0).sound_timer ∧
        c1.keyboard = (withBytes 0x00 0xE0).keyboard ∧
        c1.keyboard_waiting = (withBytes 0x00 0xE0).keyboard_waiting ∧
        c1.keyboard_register = (withBytes 0x00 0xE0).keyboard_register ∧
        c1.stack = (withBytes 0x00 0xE0).stack ∧
        c1.stack_pointer = (withBytes 0x00 0xE0).stack_pointer ∧
        c1.program_counter = (withBytes 0x00 0xE0).program_counter + 2 :=
  ⟨by decide, exec_cls_clears_screen (withBytes 0x00 0xE0) (by decide)⟩

/-- Claim C10: from one and the same state with a fetchable opcode, the
skip-equal and skip-not-equal routines are exact complements: skip-equal
advances the program counter by 4 precisely when skip-not-equal advances
it by 2 and vice versa, and neither routine changes any state component
other than the program counter. -/
theorem se_sne_complementary (c : Chip8) (op : Nat) (hf : get_opcode c = some op) :
    ∃ c1 c2, se_vx_byte c = some c1 ∧ sne_vx_byte c = some c2 ∧
      (c1.program_counter = c.program_counter + 4 ↔
        c2.program_counter = c.program_counter + 2) ∧
      (c1.program_counter = c.program_counter + 2 ↔
        c2.program_counter = c.program_counter + 4) ∧
      c1.screen = c.screen ∧ c2.screen = c.screen ∧
      c1.memory = c.memory ∧ c2.memory = c.memory ∧
      c1.data_register = c.data_register ∧ c2.data_register = c.data_register ∧
      c1.address_register = c.address_register ∧ c2.address_register = c.address_register ∧
      c1.delay_timer = c.delay_timer ∧ c2.delay_timer = c.delay_timer ∧
      c1.sound_timer = c.sound_timer ∧ c2.sound_timer = c.sound_timer ∧
      c1.keyboard = c.keyboard ∧ c2.keyboard = c.keyboard ∧
      c1.keyboard_waiting = c.keyboard_waiting ∧ c2.keyboard_waiting = c.keyboard_waiting ∧
      c1.keyboard_register = c.keyboard_register ∧ c2.keyboard_register = c.keyboard_register ∧
      c1.stack = c.stack ∧ c2.stack = c.stack ∧
      c1.stack_pointer = c.stack_pointer ∧ c2.stack_pointer = c.stack_pointer := by
  refine ⟨{ c with program_counter :=
        (if c.memory ((op &&& 0x0F00) >>> 8) = op &&& 0x00FF
         then c.program_counter + INSTRUCTION_LENGTH
         else c.program_counter) + INSTRUCTION_LENGTH },
    { c with program_counter :=
        (if c.memory ((op &&& 0x0F00) >>> 8) ≠ op &&& 0x00FF
         then c.program_counter + INSTRUCTION_LENGTH
         else c.program_counter) + INSTRUCTION_LENGTH },
    ?_, ?_, ?_, ?_,
    rfl, rfl, rfl, rfl, rfl, rfl, rfl, rfl, rfl, rfl, rfl, rfl,
    rfl, rfl, rfl, rfl, rfl, rfl, rfl, rfl, rfl, rfl⟩
  · unfold se_vx_byte
    simp only [hf]
  · unfold sne_vx_byte
    simp only [hf]
  · by_cases h : c.memory ((op &&& 0x0F00) >>> 8) = op &&& 0x00FF <;>
      simp [h, INSTRUCTION_LENGTH]
  · by_cases h : c.memory ((op &&& 0x0F00) >>> 8) = op &&& 0x00FF <;>
      simp [h, INSTRUCTION_LENGTH]

/-- Witness for C10: the fresh machine with its all-zero opcode; the
fetch hypothesis holds by computation. -/
theorem se_sne_complementary_witness :
    get_opcode zeroState = some 0 ∧
      ∃ c1 c2, se_vx_byte zeroState = some c1 ∧ sne_vx_byte zeroState = some c2 ∧
        (c1.program_counter = zeroState.program_counter + 4 ↔
          c2.program_counter = zeroState.program_counter + 2) ∧
        (c1.program_counter = zeroState.program_counter + 2 ↔
          c2.program_counter = zeroState.program_counter + 4) ∧
        c1.screen = zeroState.screen ∧ c2.screen = zeroState.screen ∧
        c1.memory = zeroState.memory ∧ c2.memory = zeroState.memory ∧
        c1.data_register = zeroState.data_register ∧ c2.data_register = zeroState.data_register ∧
        c1.address_register = zeroState.address_register ∧ c2.address_register = zeroState.address_register ∧
        c1.delay_timer = zeroState.delay_timer ∧ c2.delay_timer = zeroState.delay_timer ∧
        c1.sound_timer = zeroState.sound_timer ∧ c2.sound_timer = zeroState.sound_timer ∧
        c1.keyboard = zeroState.keyboard ∧ c2.keyboard = zeroState.keyboard ∧
        c1.keyboard_waiting = zeroState.keyboard_waiting ∧ c2.keyboard_waiting = zeroState.keyboard_waiting ∧
        c1.keyboard_register = zeroState.keyboard_register ∧ c2.keyboard_register = zeroState.keyboard_register ∧
        c1.stack = zeroState.stack ∧ c2.stack = zeroState.stack ∧
        c1.stack_pointer = zeroState.stack_pointer ∧ c2.stack_pointer = zeroState.stack_pointer :=
  ⟨by decide, se_sne_complementary zeroState 0 (by decide)⟩

/-- Success characterization of the ROM copy loop: when every byte fits
below the end of memory the loop completes without fault, has written
byte j at address 0x200 + i + j, and has preserved every address below
the start of the write window. -/
lemma load_rom_go_ok (rom : List Nat) : ∀ (mem : Nat → Nat) (i : Nat),
    0x200 + i + rom.length ≤ 4096 →
      (load_rom_go mem i rom).2 = false ∧
      (∀ j, j < rom.length →
        (load_rom_go mem i rom).1 (0x200 + i + j) = rom.getD j 0) ∧
      (∀ a, a < 0x200 + i → (load_rom_go mem i rom).1 a = mem a) := by
  induction rom with
  | nil =>
    intro mem i _
    refine ⟨rfl, ?_, fun a _ => rfl⟩
    intro j hj
    simp at hj
  | cons b rest ih =>
    intro mem i h
    have hlen : (b :: rest).length = rest.length + 1 := by simp
    have hlt : 0x200 + i < 4096 := by omega
    have hstep : load_rom_go mem i (b :: rest)
        = load_rom_go (upd mem (0x200 + i) b) (i + 1) rest := by
      rw [load_rom_go]
      rw [if_pos (by unfold CHIP8_MEMORY; omega)]
    obtain ⟨ih1, ih2, ih3⟩ :=
      ih (upd mem (0x200 + i) b) (i + 1) (by omega)
    rw [hstep]
    refine ⟨ih1, ?_, ?_⟩
    · intro j hj
      cases j with
      | zero =>
        have hpres := ih3 (0x200 + i) (by omega)
        rw [show 0x200 + i + 0 = 0x200 + i by omega, hpres]
        simp [upd]
      | succ k =>
        have hk : k < rest.length := by
          rw [hlen] at hj
          omega
        have hrec := ih2 k hk
        rw [show 0x200 + i + (k + 1) = 0x200 + (i + 1) + k by omega, hrec]
        simp
    · intro a ha
      rw [ih3 a (by omega)]
      unfold upd
      rw [if_neg (by omega)]

/-- Fault characterization of the ROM copy loop: when a nonempty tail of
bytes runs past the end of memory the loop panics, but only after having
written every byte whose target address lies inside memory, and the
addresses below the write window keep their prior contents. -/
lemma load_rom_go_fault (rom : List Nat) : ∀ (mem : Nat → Nat) (i : Nat),
    0 < rom.length → 4096 < 0x200 + i + rom.length →
      (load_rom_go mem i rom).2 = true ∧
      (∀ j, j < rom.length → 0x200 + i + j < 4096 →
        (load_rom_go mem i rom).1 (0x200 + i + j) = rom.getD j 0) ∧
      (∀ a, a < 0x200 + i → (load_rom_go mem i rom).1 a = mem a) := by
  induction rom with
  | nil =>
    intro mem i h0 _
    simp at h0
  | cons b rest ih =>
    intro mem i _ hov
    have hlen : (b :: rest).length = rest.length + 1 := by simp
    by_cases hlt : 0x200 + i < 4096
    · have hrest : 0 < rest.length := by
        rw [hlen] at hov
        omega
      have hstep : load_rom_go mem i (b :: rest)
          = load_rom_go (upd mem (0x200 + i) b) (i + 1) rest := by
        rw [load_rom_go]
        rw [if_pos (by unfold CHIP8_MEMORY; omega)]
      obtain ⟨ih1, ih2, ih3⟩ :=
        ih (upd mem (0x200 + i) b) (i + 1) hrest (by rw [hlen] at hov; omega)
      rw [hstep]
      refine ⟨ih1, ?_, ?_⟩
      · intro j hj haddr
        cases j with
        | zero =>
          have hpres := ih3 (0x200 + i) (by omega)
          rw [show 0x200 + i + 0 = 0x200 + i by omega, hpres]
          simp [upd]
        | succ k =>
          have hk : k < rest.length := by
            rw [hlen] at hj
            omega
          have hrec := ih2 k hk (by omega)
          rw [show 0x200 + i + (k + 1) = 0x200 + (i + 1) + k by omega, hrec]
          simp
      · intro a ha
        rw [ih3 a (by omega)]
        unfold upd
        rw [if_neg (by omega)]
    · have hstep : load_rom_go mem i (b :: rest) = (mem, true) := by
        rw [load_rom_go]
        rw [if_neg (by unfold CHIP8_MEMORY; omega)]
      rw [hstep]
      refine ⟨rfl, ?_, fun a _ => rfl⟩
      intro j _ haddr
      exact absurd haddr (by omega)

/-- Claim C4: loading at most 3584 bytes, in particular exactly 3584,
succeeds and writes the bytes at addresses 0x200 upward; but loading
more than 3584 bytes is neither rejected with a RomTooLarge error nor
truncated: the unchecked copy loop writes the first 3584 bytes into
memory and only then panics on the out-of-bounds index, so mutation
precedes the fault. -/
theorem load_rom_exact_and_overlong (c : Chip8) (rom : List Nat) :
    (rom.length ≤ 3584 →
       ∃ c1, load_rom c rom = RomLoad.ok c1 ∧
         ∀ j, j < rom.length → c1.memory (0x200 + j) = rom.getD j 0) ∧
    (3584 < rom.length →
       ∃ c1, load_rom c rom = RomLoad.fault c1 ∧
         ∀ j, j < 3584 → c1.memory (0x200 + j) = rom.getD j 0) := by
  constructor
  · intro h
    obtain ⟨h1, h2, -⟩ := load_rom_go_ok rom c.memory 0 (by omega)
    refine ⟨{ c with memory := (load_rom_go c.memory 0 rom).1 }, ?_, ?_⟩
    · unfold load_rom
      simp [h1]
    · intro j hj
      have := h2 j hj
      simpa using this
  · intro h
    obtain ⟨h1, h2, -⟩ := load_rom_go_fault rom c.memory 0 (by omega) (by omega)
    refine ⟨{ c with memory := (load_rom_go c.memory 0 rom).1 }, ?_, ?_⟩
    · unfold load_rom
      simp [h1]
    · intro j hj
      have := h2 j (by omega) (by omega)
      simpa using this

/-- ROM of 3585 bytes, one byte beyond the available space, used by the
C4 witness. -/
def overlongRom : List Nat := List.replicate 3585 7

/-- ROM of exactly 3584 bytes used by the C4 witness. -/
def fullRom : List Nat := List.replicate 3584 9

/-- Witness for C4: the full 3584-byte ROM loads successfully with its
bytes placed from 0x200 upward, while the 3585-byte ROM drives the
loader into the faulting branch with the first 3584 bytes written. -/
theorem load_rom_exact_and_overlong_witness :
    fullRom.length ≤ 3584 ∧
      (∃ c1, load_rom zeroState fullRom = RomLoad.ok c1 ∧
        ∀ j, j < fullRom.length → c1.memory (0x200 + j) = fullRom.getD j 0) ∧
      3584 < overlongRom.length ∧
      (∃ c1, load_rom zeroState overlongRom = RomLoad.fault c1 ∧
        ∀ j, j < 3584 → c1.memory (0x200 + j) = overlongRom.getD j 0) :=
  ⟨by norm_num [fullRom],
    (load_rom_exact_and_overlong zeroState fullRom).1 (by norm_num [fullRom]),
    by norm_num [overlongRom],
    (load_rom_exact_and_overlong zeroState overlongRom).2 (by norm_num [overlongRom])⟩
